import Mathlib

/-!
Shallow embedding of the OpenDoorBot typeform-to-amoCRM webhook service.

Source files embedded:
* `src/typeform.ts` — payload model, `extractContactBits`, `stringifyAnswers`
* `src/db.ts` — submission rows, `getSubmissionByToken`,
  `getLatestSubmissionByLandingId`, `upsertSubmission`
* `src/amocrm.ts` — `amoFetch` retry-on-401, `createOrUpdateByTypeform`
* `src/mapping.ts` — `buildLeadCustomFields`
* `src/index.ts` — the webhook handler pipeline

JavaScript value conventions used throughout the embedding:
* a `string | undefined` is `Option String`; JS truthiness of such a value
  (`if (s)`) is `otruthy` (present and non-empty);
* a `number | undefined` is `Option Nat`; JS truthiness is `ontruthy`
  (present and non-zero);
* a JS `Map` / plain object is an association list; `Map.set` replaces the
  first existing binding in place or appends (`jsMapSet`), lookup reads the
  first matching binding (`jsMapGet`);
* the database table is a list of rows ordered by `updated_at` descending
  (most recently updated first); an upsert puts the touched row at the front.
-/

namespace OpenDoorBot

/-- JS truthiness of a `string | undefined` value: present and non-empty. -/
def otruthy : Option String → Bool
  | some s => s ≠ ""
  | none => false

/-- JS truthiness of a `number | undefined` value: present and non-zero. -/
def ontruthy : Option Nat → Bool
  | some n => n ≠ 0
  | none => false

/-- Keep a `string | undefined` value only when it is JS-truthy. -/
def truthyOpt (o : Option String) : Option String :=
  if otruthy o then o else none

/-- JS `Map.set`: replace the first binding of the key in place, else append. -/
def jsMapSet {α β : Type} [DecidableEq α] : List (α × β) → α → β → List (α × β)
  | [], k, v => [(k, v)]
  | kv :: rest, k, v => if kv.1 = k then (k, v) :: rest else kv :: jsMapSet rest k v

/-- JS `Map.get` / object property lookup: first matching binding. -/
def jsMapGet {α β : Type} [DecidableEq α] (m : List (α × β)) (k : α) : Option β :=
  (m.find? (fun kv => decide (kv.1 = k))).map (·.2)

/-- `p` is a prefix of the character list `s` (JS `String.prototype.startsWith`). -/
def isPrefixChars : List Char → List Char → Bool
  | [], _ => true
  | _ :: _, [] => false
  | a :: as, b :: bs => a = b && isPrefixChars as bs

/-- JS `String.prototype.includes` on character lists. -/
def strIncludesChars (needle : List Char) : List Char → Bool
  | [] => isPrefixChars needle []
  | c :: cs => isPrefixChars needle (c :: cs) || strIncludesChars needle cs

/-- JS `s.startsWith(p)`. -/
def strStartsWith (s p : String) : Bool := isPrefixChars p.data s.data

/-- JS `s.includes(sub)`. -/
def strIncludes (s sub : String) : Bool := strIncludesChars sub.data s.data

/-! ## `src/typeform.ts` — payload model -/

/-- `answers[i].choice` of the typeform payload. -/
structure AnswerChoice where
  label : Option String
  other : Option String
deriving DecidableEq, Repr

/-- `answers[i].choices` of the typeform payload. -/
structure AnswerChoices where
  labels : Option (List String)
  other : Option String
deriving DecidableEq, Repr

/-- `answers[i].field` of the typeform payload. -/
structure AnswerField where
  id : String
  ref : Option String
deriving DecidableEq, Repr

/-- One element of `form_response.answers`. -/
structure Answer where
  type : String
  field : AnswerField
  text : Option String
  email : Option String
  phone_number : Option String
  boolean : Option Bool
  number : Option Int
  date : Option String
  choice : Option AnswerChoice
  choices : Option AnswerChoices
deriving DecidableEq, Repr

/-- One element of `form_response.definition.fields`. -/
structure DefinitionField where
  id : String
  ref : Option String
  title : Option String
deriving DecidableEq, Repr

/-- `form_response.definition`. -/
structure FormDefinition where
  fields : Option (List DefinitionField)
deriving DecidableEq, Repr

/-- `form_response` of the webhook payload.  `form_id` and `token` are typed
as required in the source, but the handler accesses them through optional
chaining (`payload.form_response?.token`), so they are modelled as optional:
`none` stands for a missing field (or a missing `form_response` object). -/
structure FormResponse where
  form_id : Option String
  token : Option String
  landing_id : Option String
  submitted_at : Option String
  hidden : Option (List (String × String))
  definition : Option FormDefinition
  answers : Option (List Answer)
deriving DecidableEq, Repr

/-- `TypeformWebhookPayload`. -/
structure Payload where
  event_id : Option String
  event_type : Option String
  form_response : FormResponse
deriving DecidableEq, Repr

/-- Result of `extractContactBits`. -/
structure ContactBits where
  name : Option String
  email : Option String
  phone : Option String
deriving DecidableEq, Repr

/-- JS object lookup on the `hidden` record; JSON duplicate keys resolve to
the last occurrence, so the lookup reads the last matching binding. -/
def jsObjGet (m : List (String × String)) (k : String) : Option String :=
  ((m.filter (fun kv => decide (kv.1 = k))).getLast?).map (·.2)

/-- Loop body state of `extractContactBits`: `(email, phone, name)`. -/
def contactStep (acc : Option String × Option String × Option String) (a : Answer) :
    Option String × Option String × Option String :=
  let email := acc.1
  let phone := acc.2.1
  let name := acc.2.2
  let email := if ¬ otruthy email ∧ otruthy a.email then a.email else email
  let phone := if ¬ otruthy phone ∧ otruthy a.phone_number then a.phone_number else phone
  let name :=
    if ¬ otruthy name ∧ a.type = "text" ∧ otruthy a.text ∧ (a.text.getD "").trim.length > 1
    then some (a.text.getD "").trim else name
  (email, phone, name)

/-- `extractContactBits` from `src/typeform.ts`: scan answers first, then fall
back to the hidden parameters for any slot still unset. -/
def extractContactBits (p : Payload) : ContactBits :=
  let answers := p.form_response.answers.getD []
  let s := answers.foldl contactStep (none, none, none)
  let email := s.1
  let phone := s.2.1
  let name := s.2.2
  let hidden := p.form_response.hidden.getD []
  let email := if ¬ otruthy email ∧ otruthy (jsObjGet hidden "email") then jsObjGet hidden "email" else email
  let phone := if ¬ otruthy phone ∧ otruthy (jsObjGet hidden "phone") then jsObjGet hidden "phone" else phone
  let name := if ¬ otruthy name ∧ otruthy (jsObjGet hidden "name") then jsObjGet hidden "name" else name
  { name := name, email := email, phone := phone }

/-- The if/else-if value rendering chain of `stringifyAnswers`. -/
def answerValueText (a : Answer) : String :=
  if otruthy a.text then a.text.getD ""
  else if otruthy a.email then a.email.getD ""
  else if otruthy a.phone_number then a.phone_number.getD ""
  else match a.boolean with
  | some b => if b then "true" else "false"
  | none => match a.number with
    | some n => toString n
    | none =>
      if otruthy a.date then a.date.getD ""
      else if otruthy (a.choice.bind (·.label)) then (a.choice.bind (·.label)).getD ""
      else match a.choices.bind (·.labels) with
        | some ls => if ls ≠ [] then String.intercalate ", " ls else "(unsupported)"
        | none => "(unsupported)"

/-- The `titleByKey` map of `stringifyAnswers`: for each definition field,
set `ref → title` then `id → title` when both sides are truthy. -/
def titleByKey (fields : List DefinitionField) : List (String × String) :=
  fields.foldl (fun m f =>
    let m := if otruthy f.ref ∧ otruthy f.title then jsMapSet m (f.ref.getD "") (f.title.getD "") else m
    if f.id ≠ "" ∧ otruthy f.title then jsMapSet m f.id (f.title.getD "") else m) []

/-- Stable insertion sort with `≤` on strings, modelling `Array.prototype.sort`
on the hidden keys. -/
def sortStrings (l : List String) : List String :=
  l.foldr insertSorted []
where
  insertSorted (x : String) : List String → List String
    | [] => [x]
    | y :: ys => if x ≤ y then x :: y :: ys else y :: insertSorted x ys

/-- `stringifyAnswers` from `src/typeform.ts`. -/
def stringifyAnswers (p : Payload) : String :=
  let answers := p.form_response.answers.getD []
  let defFields := (p.form_response.definition.bind (·.fields)).getD []
  let tbk := titleByKey defFields
  let parts := answers.map (fun a =>
    let key := a.field.ref.getD a.field.id
    let title := jsMapGet tbk key
    (title.getD key) ++ ": " ++ answerValueText a)
  let hidden := p.form_response.hidden.getD []
  let hiddenKeys := hidden.map (·.1)
  let parts :=
    if hiddenKeys ≠ [] then
      parts ++ ["", "hidden:"] ++
        ((sortStrings hiddenKeys).map (fun k => k ++ ": " ++ (jsObjGet hidden k).getD ""))
    else parts
  String.intercalate "\n" parts

/-! ## `src/db.ts` — submission ledger -/

/-- One row of `typeform_submissions`.  `amo_lead_id` / `amo_contact_id` are
nullable BIGINT columns, modelled as `Option Nat`. -/
structure SubmissionRow where
  form_id : String
  response_token : String
  landing_id : Option String
  submitted_at : Option String
  last_event_id : Option String
  last_event_type : Option String
  amo_lead_id : Option Nat
  amo_contact_id : Option Nat
  last_payload : Option Payload
deriving DecidableEq, Repr

/-- The `typeform_submissions` table, ordered by `updated_at` descending
(most recently updated row first). -/
def DbState := List SubmissionRow

/-- `getSubmissionByToken`: `WHERE response_token=$1`. -/
def getSubmissionByToken (db : DbState) (token : String) : Option SubmissionRow :=
  db.find? (fun r => decide (r.response_token = token))

/-- `getLatestSubmissionByLandingId`: `WHERE form_id=$1 AND landing_id=$2
ORDER BY updated_at DESC LIMIT 1`; the list is recency-ordered, so the first
match is the latest. -/
def getLatestSubmissionByLandingId (db : DbState) (formId landingId : String) :
    Option SubmissionRow :=
  db.find? (fun r => decide (r.form_id = formId ∧ r.landing_id = some landingId))

/-- The named parameters of `upsertSubmission`. -/
structure UpsertParams where
  formId : String
  responseToken : String
  landingId : Option String
  submittedAt : Option String
  lastEventId : Option String
  lastEventType : Option String
  amoLeadId : Option Nat
  amoContactId : Option Nat
  lastPayload : Payload
deriving DecidableEq, Repr

/-- The bound value for `submitted_at`: `submittedAt ? new Date(submittedAt)
: null` — an absent or empty string binds NULL; the date value itself is kept
as the raw string. -/
def submittedAtValue : Option String → Option String
  | some s => if s = "" then none else some s
  | none => none

/-- The `DO UPDATE SET` clause of `upsertSubmission`: `form_id` and
`last_payload` take the excluded (new) value, every optional column takes
`COALESCE(EXCLUDED.col, old.col)`. -/
def mergeRow (old : SubmissionRow) (p : UpsertParams) : SubmissionRow :=
  { form_id := p.formId
    response_token := old.response_token
    landing_id := p.landingId <|> old.landing_id
    submitted_at := submittedAtValue p.submittedAt <|> old.submitted_at
    last_event_id := p.lastEventId <|> old.last_event_id
    last_event_type := p.lastEventType <|> old.last_event_type
    amo_lead_id := p.amoLeadId <|> old.amo_lead_id
    amo_contact_id := p.amoContactId <|> old.amo_contact_id
    last_payload := some p.lastPayload }

/-- The `INSERT` values of `upsertSubmission` when no row conflicts. -/
def newRow (p : UpsertParams) : SubmissionRow :=
  { form_id := p.formId
    response_token := p.responseToken
    landing_id := p.landingId
    submitted_at := submittedAtValue p.submittedAt
    last_event_id := p.lastEventId
    last_event_type := p.lastEventType
    amo_lead_id := p.amoLeadId
    amo_contact_id := p.amoContactId
    last_payload := some p.lastPayload }

/-- `upsertSubmission`: insert, or merge on the unique `response_token`
conflict.  The touched row gets `updated_at=NOW()` and therefore moves to the
front of the recency-ordered table. -/
def upsertSubmission (db : DbState) (p : UpsertParams) : DbState :=
  match getSubmissionByToken db p.responseToken with
  | some old => mergeRow old p :: db.filter (fun r => !(decide (r.response_token = p.responseToken)))
  | none => newRow p :: db

/-! ## `src/mapping.ts` — lead custom-field mapper -/

/-- One element of a custom-field `values` array: `{ value?, enum_id? }`. -/
structure CFEntry where
  value : Option String
  enum_id : Option Nat
deriving DecidableEq, Repr

/-- A lead custom-field assignment `{ field_id, values }`. -/
structure LeadCustomFieldValue where
  field_id : Nat
  values : List CFEntry
deriving DecidableEq, Repr

/-- One entry of the parsed `TYPEFORM_FIELD_MAP` table. -/
structure FieldMapping where
  entity : String
  fieldId : Nat
deriving DecidableEq, Repr

/-- The parsed `TYPEFORM_FIELD_MAP` environment value: ref/id → mapping. -/
def FieldMap := List (String × FieldMapping)

/-- `HIDDEN_TO_LEAD_FIELD_ID` from `src/mapping.ts`. -/
def HIDDEN_TO_LEAD_FIELD_ID : List (String × Nat) :=
  [("utm_content", 214691), ("utm_medium", 214693), ("utm_campaign", 214695),
   ("utm_source", 214697), ("utm_term", 214699), ("utm_referrer", 214701),
   ("roistat", 214703), ("referrer", 214705), ("openstat_service", 214707),
   ("openstat_campaign", 214709), ("openstat_ad", 214711), ("openstat_source", 214713),
   ("from", 214715), ("gclientid", 214717), ("_ym_uid", 214719), ("_ym_counter", 214721),
   ("gclid", 214723), ("yclid", 214725), ("fbclid", 214727)]

/-- `DEFAULT_REFS.fullName`. -/
def REFS_fullName : List String :=
  ["fd704be3-ad3e-4290-b60d-7f975b55ae84", "3e231887-ca36-4afd-aefa-119d3c7e710d"]

/-- `DEFAULT_REFS.childName`. -/
def REFS_childName : List String :=
  ["8c517346-f61c-4275-ae57-1a088af15cfe", "2fa4a64a-dac4-4ace-98a3-18419435d831"]

/-- `DEFAULT_REFS.childDob`. -/
def REFS_childDob : List String :=
  ["d35af5e7-1255-485c-a445-d49d2c682fd2", "98e1c79c-bdb2-4534-bf70-5894ed7e9c2b"]

/-- `DEFAULT_REFS.desiredProgram`. -/
def REFS_desiredProgram : List String :=
  ["f1da7df1-b0b0-4fc7-8cd4-0bf95cfdcd2b", "c90719d9-e6d8-4fbe-9d4b-c05953644281"]

/-- `DEFAULT_REFS.currentEducation`. -/
def REFS_currentEducation : List String :=
  ["658c6abe-395a-4362-9124-6304202d443b", "b1a6060f-4d88-4be0-ae79-8944452c3c1a"]

/-- `LEAD_FIELD.fullName`. -/
def FIELD_fullName : Nat := 985897

/-- `LEAD_FIELD.childName1`. -/
def FIELD_childName1 : Nat := 995889

/-- `LEAD_FIELD.childDob1`. -/
def FIELD_childDob1 : Nat := 995891

/-- `LEAD_FIELD.desiredProgram`. -/
def FIELD_desiredProgram : Nat := 995887

/-- `LEAD_FIELD.currentEducation`. -/
def FIELD_currentEducation : Nat := 985895

/-- `^\d{4}-\d{2}-\d{2}$` test used by `toAmoDateTime`. -/
def isYmdShape (s : String) : Bool :=
  match s.data with
  | [a, b, c, d, h1, e, f, h2, g, i] =>
      a.isDigit && b.isDigit && c.isDigit && d.isDigit && h1 = '-' &&
      e.isDigit && f.isDigit && h2 = '-' && g.isDigit && i.isDigit
  | _ => false

/-- `toAmoDateTime` from `src/mapping.ts`. -/
def toAmoDateTime : Option String → Option String
  | none => none
  | some v =>
      if v = "" then none
      else
        let s := v.trim
        if isYmdShape s then some (s ++ "T00:00:00+00:00") else some s

/-- `getAnswerString` from `src/mapping.ts`. -/
def getAnswerString (a : Answer) : Option String :=
  if otruthy a.text then a.text
  else if otruthy a.email then a.email
  else if otruthy a.phone_number then a.phone_number
  else match a.boolean with
  | some b => some (if b then "true" else "false")
  | none => match a.number with
    | some n => some (toString n)
    | none =>
      if otruthy a.date then toAmoDateTime a.date
      else if otruthy (a.choice.bind (·.label)) then a.choice.bind (·.label)
      else match a.choices.bind (·.labels) with
        | some ls => if ls ≠ [] then some (String.intercalate ", " ls) else none
        | none => none

/-- `mapDesiredProgramEnum` from `src/mapping.ts`; `toLowerCase` is modelled
by `String.toLower`, faithful on the ASCII program labels matched here. -/
def mapDesiredProgramEnum : Option String → Option Nat
  | none => none
  | some label =>
      if label = "" then none
      else
        let s := label.trim.toLower
        if strStartsWith s "ib kg" then some 1222831
        else if strStartsWith s "pyp" then some 1222835
        else if strStartsWith s "myp" then some 1222835
        else if strStartsWith s "dp" then some 1222835
        else if strIncludes s "not sure" then some 1222837
        else if strIncludes s "не уверен" then some 1222837
        else none

/-- The arguments of one `put` invocation inside `buildLeadCustomFields`. -/
structure PutArgs where
  fieldId : Nat
  value : Option String
  enumId : Option Nat
deriving DecidableEq, Repr

/-- `put` skips the write when the value is absent or whitespace-only and no
enum id is supplied. -/
def putSkipped (pa : PutArgs) : Bool :=
  (pa.value.isNone || (pa.value.getD "").trim = "") && pa.enumId.isNone

/-- The assignment `put` stores: the value slot is present only for a truthy
value (then trimmed), the enum slot only for a truthy enum id. -/
def renderPut (pa : PutArgs) : LeadCustomFieldValue :=
  { field_id := pa.fieldId
    values := [{ value := if otruthy pa.value then some ((pa.value.getD "").trim) else none
                 enum_id := match pa.enumId with
                   | some n => if n ≠ 0 then some n else none
                   | none => none }] }

/-- `put` from `buildLeadCustomFields`, acting on the `outByFieldId` map. -/
def applyPut (m : List (Nat × LeadCustomFieldValue)) (pa : PutArgs) :
    List (Nat × LeadCustomFieldValue) :=
  if putSkipped pa then m else jsMapSet m pa.fieldId (renderPut pa)

/-- The puts issued by the hidden-parameter loop of `buildLeadCustomFields`:
skip unmapped keys (`if (!fieldId) continue`) and whitespace-only values. -/
def hiddenPutArgs (hidden : List (String × String)) : List PutArgs :=
  hidden.filterMap (fun kv =>
    match jsMapGet HIDDEN_TO_LEAD_FIELD_ID kv.1 with
    | none => none
    | some fieldId =>
        if fieldId = 0 then none
        else if kv.2.trim = "" then none
        else some ⟨fieldId, some kv.2, none⟩)

/-- The puts issued for one answer by the statically-mapped-refs loop of
`buildLeadCustomFields`, in source order. -/
def staticPutArgs (a : Answer) : List PutArgs :=
  let key := a.field.ref.getD a.field.id
  (if REFS_fullName.contains key then [⟨FIELD_fullName, a.text, none⟩] else []) ++
  (if REFS_childName.contains key then [⟨FIELD_childName1, a.text, none⟩] else []) ++
  (if REFS_childDob.contains key then [⟨FIELD_childDob1, toAmoDateTime a.date, none⟩] else []) ++
  (if REFS_desiredProgram.contains key then
    [⟨FIELD_desiredProgram, none, mapDesiredProgramEnum (a.choice.bind (·.label))⟩] else []) ++
  (if REFS_currentEducation.contains key then
    [⟨FIELD_currentEducation, a.choice.bind (·.label), none⟩] else [])

/-- The put issued for one answer by the dynamic `TYPEFORM_FIELD_MAP` loop of
`buildLeadCustomFields`. -/
def dynPutArgs (fieldMap : FieldMap) (a : Answer) : Option PutArgs :=
  let key := a.field.ref.getD a.field.id
  match jsMapGet fieldMap key with
  | none => none
  | some mp => if mp.entity ≠ "lead" then none
      else some ⟨mp.fieldId, getAnswerString a, none⟩

/-- The full sequence of `put` invocations of `buildLeadCustomFields`, in the
source's phase order: hidden parameters, then static answer refs, then the
dynamic field map. -/
def putSequence (fieldMap : FieldMap) (p : Payload) : List PutArgs :=
  let hidden := p.form_response.hidden.getD []
  let answers := p.form_response.answers.getD []
  hiddenPutArgs hidden ++ answers.flatMap staticPutArgs ++ answers.filterMap (dynPutArgs fieldMap)

/-- `buildLeadCustomFields` from `src/mapping.ts`: run the puts over the
`outByFieldId` map and return `Array.from(map.values())`.  The map argument
is the parsed `TYPEFORM_FIELD_MAP` environment configuration. -/
def buildLeadCustomFields (fieldMap : FieldMap) (p : Payload) : List LeadCustomFieldValue :=
  ((putSequence fieldMap p).foldl applyPut []).map (·.2)

/-! ## `src/amocrm.ts` — HTTP layer: `amoFetch` retry-on-401 -/

/-- An HTTP response as observed by `amoFetch` (`fetch` never rejects here;
network failures are out of scope). -/
structure HttpResp where
  status : Nat
  body : String
deriving DecidableEq, Repr

/-- `res.ok` of the Fetch API: status in the range 200–299. -/
def respOk (r : HttpResp) : Bool :=
  decide (200 ≤ r.status ∧ r.status ≤ 299)

/-- The remote world one authenticated call runs against: the response to the
n-th request attempt, and the outcome of `maybeRefresh` (`ok` covers both a
successful refresh and the configured no-op; `error` the thrown
`amoCRM refresh failed` case). -/
structure FetchEnv where
  responses : Nat → HttpResp
  refreshOutcome : Except String Unit

/-- The observable remote actions of one authenticated call. -/
inductive AmoAction where
  | request (attempt : Nat)
  | refreshTok
deriving DecidableEq, Repr

/-- `amoFetch`: perform the request; on a 401 with retries left, run
`maybeRefresh` and replay once with `retryOn401` disabled (`retries = 0`).
The boolean `retryOn401` parameter of the source is the retry budget:
`true ↦ 1`, `false ↦ 0`. -/
def amoFetch (env : FetchEnv) : Nat → Nat → List AmoAction × Except String HttpResp
  | attempt, retries =>
    let r := env.responses attempt
    if r.status = 401 then
      match retries with
      | 0 => ([.request attempt], .ok r)
      | n + 1 =>
        match env.refreshOutcome with
        | .error e => ([.request attempt, .refreshTok], .error e)
        | .ok _ =>
          let rest := amoFetch env (attempt + 1) n
          ([.request attempt, .refreshTok] ++ rest.1, rest.2)
    else ([.request attempt], .ok r)

/-- An authenticated call as every object operation makes it: `amoFetch` with
the default `retryOn401 = true`, followed by the `if (!res.ok) throw` check
that carries the status and body in the error message. -/
def amoCallChecked (env : FetchEnv) (opName : String) : List AmoAction × Except String HttpResp :=
  let res := amoFetch env 0 1
  match res.2 with
  | .error e => (res.1, .error e)
  | .ok r =>
      if respOk r then (res.1, .ok r)
      else (res.1, .error ("amoCRM " ++ opName ++ " failed: " ++ toString r.status ++ " " ++ r.body))

/-! ## `src/amocrm.ts` — object operations and `createOrUpdateByTypeform` -/

/-- The amoCRM configuration fields used by the object operations. -/
structure AmoConfig where
  pipelineId : Nat
  initialStatusId : Option Nat
deriving DecidableEq, Repr

/-- One entry of a contact's `custom_fields_values`. -/
structure ContactFieldValue where
  field_id : Nat
  value : String
  enum_id : Nat
deriving DecidableEq, Repr

/-- `buildContactCustomFields`: a phone entry (field 214683, enum 115921)
then an email entry (field 214685, enum 115933), each only when truthy. -/
def buildContactCustomFields (phone email : Option String) : List ContactFieldValue :=
  (if otruthy phone then [⟨214683, phone.getD "", 115921⟩] else []) ++
  (if otruthy email then [⟨214685, email.getD "", 115933⟩] else [])

/-- One remote CRM side effect, recorded with the request body it sends. -/
inductive CrmCall where
  | createLead (name : String) (pipelineId : Nat) (statusId : Option Nat)
  | createContact (name : String) (fields : List ContactFieldValue)
  | updateContact (contactId : Nat) (name : Option String) (fields : List ContactFieldValue)
  | link (leadId : Nat) (contactId : Nat)
  | updateLeadFields (leadId : Nat) (fields : List LeadCustomFieldValue)
  | addNote (leadId : Nat) (text : String)
deriving DecidableEq, Repr

/-- The remote outcomes of one reconciliation, one slot per object operation
(each operation is invoked at most once per reconciliation).  The create
slots carry `json._embedded?....[0]?.id` (`none` = id missing from the
response); errors stand for any thrown failure of that call. -/
structure CrmEnv where
  createLeadResp : Except String (Option Nat)
  createContactResp : Except String (Option Nat)
  updateContactResp : Except String Unit
  linkResp : Except String Unit
  updateLeadResp : Except String Unit
  addNoteResp : Except String Unit

/-- `createLead`: POST the lead body and fail when the response carries no
truthy created id (`if (!leadId) throw`). -/
def callCreateLead (cfg : AmoConfig) (env : CrmEnv) (name : String) :
    List CrmCall × Except String Nat :=
  ([.createLead name cfg.pipelineId cfg.initialStatusId],
   match env.createLeadResp with
   | .error e => .error e
   | .ok idOpt =>
       if ontruthy idOpt then .ok (idOpt.getD 0)
       else .error "amoCRM did not return created lead id.")

/-- `createContact`: body name is `name ?? email ?? phone ?? "Typeform
contact"`; fails when the response carries no truthy created id. -/
def callCreateContact (env : CrmEnv) (name email phone : Option String) :
    List CrmCall × Except String Nat :=
  let bodyName := name.getD (email.getD (phone.getD "Typeform contact"))
  ([.createContact bodyName (buildContactCustomFields phone email)],
   match env.createContactResp with
   | .error e => .error e
   | .ok idOpt =>
       if ontruthy idOpt then .ok (idOpt.getD 0)
       else .error "amoCRM did not return created contact id.")

/-- `updateContact`: no-op without a truthy name and without derivable custom
fields; the body carries the name only when truthy. -/
def callUpdateContact (env : CrmEnv) (contactId : Nat) (name email phone : Option String) :
    List CrmCall × Except String Unit :=
  let cfs := buildContactCustomFields phone email
  if ¬ otruthy name ∧ cfs = [] then ([], .ok ())
  else ([.updateContact contactId (if otruthy name then name else none) cfs],
        env.updateContactResp)

/-- `linkLeadToContact`. -/
def callLink (env : CrmEnv) (leadId contactId : Nat) : List CrmCall × Except String Unit :=
  ([.link leadId contactId], env.linkResp)

/-- `updateLeadCustomFields`: no-op on an empty field set. -/
def callUpdateLeadFields (env : CrmEnv) (leadId : Nat) (fields : List LeadCustomFieldValue) :
    List CrmCall × Except String Unit :=
  if fields.isEmpty then ([], .ok ())
  else ([.updateLeadFields leadId fields], env.updateLeadResp)

/-- `addLeadNote`. -/
def callAddNote (env : CrmEnv) (leadId : Nat) (text : String) :
    List CrmCall × Except String Unit :=
  ([.addNote leadId text], env.addNoteResp)

/-- The contact phase of `createOrUpdateByTypeform`: decide the contact id
and perform the create/update calls of the `isNewLead` branch split. -/
def contactPhase (env : CrmEnv) (isNewLead : Bool) (hasContactBits : Bool)
    (existingContactId : Option Nat) (contact : ContactBits) :
    List CrmCall × Except String (Option Nat) :=
  if isNewLead then
    if hasContactBits then
      let c := callCreateContact env contact.name contact.email contact.phone
      (c.1, c.2.map some)
    else ([], .ok none)
  else
    let created :=
      if ¬ ontruthy existingContactId ∧ hasContactBits then
        let c := callCreateContact env contact.name contact.email contact.phone
        (c.1, c.2.map some)
      else (([] : List CrmCall), .ok existingContactId)
    match created.2 with
    | .error e => (created.1, .error e)
    | .ok c1 =>
        if ontruthy c1 ∧ hasContactBits then
          let u := callUpdateContact env (c1.getD 0) contact.name contact.email contact.phone
          (created.1 ++ u.1, u.2.map (fun _ => c1))
        else (created.1, .ok c1)

/-- Chain one reconciliation step after an already-accumulated trace:
propagate a failure, otherwise run the continuation on the value. -/
def andThen {α β : Type} (step : List CrmCall × Except String α)
    (k : α → List CrmCall × Except String β) : List CrmCall × Except String β :=
  match step.2 with
  | .error e => (step.1, .error e)
  | .ok a =>
      let next := k a
      (step.1 ++ next.1, next.2)

/-- `createOrUpdateByTypeform` from `src/amocrm.ts`: resolve the lead id
(create when absent), run the contact phase, link when a contact id is
truthy, apply non-empty custom fields, and always add the summary note
last.  Returns the recorded remote calls together with the result. -/
def createOrUpdateByTypeform (cfg : AmoConfig) (env : CrmEnv)
    (existingLeadId existingContactId : Option Nat) (typeformSummary : String)
    (leadCustomFields : List LeadCustomFieldValue) (contact : ContactBits) :
    List CrmCall × Except String (Nat × Option Nat) :=
  let leadName := "Typeform: " ++ ((contact.email <|> contact.phone).getD "submission")
  let step1 : List CrmCall × Except String Nat :=
    match existingLeadId with
    | some l => ([], .ok l)
    | none => callCreateLead cfg env leadName
  andThen step1 (fun leadId =>
    let isNewLead := ! ontruthy existingLeadId
    let hasContactBits := otruthy contact.email || otruthy contact.phone || otruthy contact.name
    andThen (contactPhase env isNewLead hasContactBits existingContactId contact) (fun contactId =>
      andThen
        (if ontruthy contactId then callLink env leadId (contactId.getD 0)
         else (([] : List CrmCall), .ok ()))
        (fun _ =>
          andThen
            (if leadCustomFields.isEmpty then (([] : List CrmCall), .ok ())
             else callUpdateLeadFields env leadId leadCustomFields)
            (fun _ =>
              andThen (callAddNote env leadId typeformSummary)
                (fun _ => ([], .ok (leadId, contactId)))))))

/-! ## `src/index.ts` — the webhook handler -/

/-- The JSON body the handler responds with (plus the HTTP status). -/
structure WebhookResponse where
  status : Nat
  ok : Bool
  leadId : Option Nat
  contactId : Option Nat
  error : Option String
deriving DecidableEq, Repr

/-- The `existing` row of the handler: lookup by token, else — when a truthy
landing id is present — the latest row for `(form_id, landing_id)`. -/
def findExisting (db : DbState) (p : Payload) (formId : String) (token : String) :
    Option SubmissionRow :=
  match getSubmissionByToken db token with
  | some r => some r
  | none =>
      match p.form_response.landing_id with
      | some l => if l ≠ "" then getLatestSubmissionByLandingId db formId l else none
      | none => none

/-- The handler's duplicate test: a record was found, the event id is truthy,
and it strictly equals the record's `last_event_id`. -/
def isDuplicate (existing : Option SubmissionRow) (eventId : Option String) : Bool :=
  match existing with
  | some r => otruthy eventId && decide (r.last_event_id = eventId)
  | none => false

/-- The non-duplicate tail of the handler: derive the summary, contact bits
and custom fields, run `createOrUpdateByTypeform`, and on success upsert the
ledger; a thrown reconciliation error is answered with status 500 and leaves
the ledger untouched. -/
def processReconcile (cfg : AmoConfig) (env : CrmEnv) (fieldMap : FieldMap)
    (db : DbState) (p : Payload) (formId : String) (token : String)
    (existing : Option SubmissionRow) :
    WebhookResponse × DbState × List CrmCall :=
  let typeformSummary := stringifyAnswers p
  let contact := extractContactBits p
  let leadCustomFields := buildLeadCustomFields fieldMap p
  let res := createOrUpdateByTypeform cfg env
    (existing.bind (·.amo_lead_id)) (existing.bind (·.amo_contact_id))
    typeformSummary leadCustomFields contact
  match res.2 with
  | .error e =>
      ({ status := 500, ok := false, leadId := none, contactId := none, error := some e },
       db, res.1)
  | .ok ids =>
      let db2 := upsertSubmission db
        { formId := formId
          responseToken := token
          landingId := p.form_response.landing_id
          submittedAt := p.form_response.submitted_at
          lastEventId := p.event_id
          lastEventType := p.event_type
          amoLeadId := some ids.1
          amoContactId := ids.2
          lastPayload := p }
      ({ status := 200, ok := true, leadId := some ids.1, contactId := ids.2, error := none },
       db2, res.1)

/-- The handler body after the payload guard: dedup short-circuit (answering
the stored lead id only) or full reconciliation. -/
def handleValid (cfg : AmoConfig) (env : CrmEnv) (fieldMap : FieldMap)
    (db : DbState) (p : Payload) (formId : String) (token : String) :
    WebhookResponse × DbState × List CrmCall :=
  let existing := findExisting db p formId token
  if isDuplicate existing p.event_id then
    ({ status := 200, ok := true,
       leadId := (existing.bind (·.amo_lead_id))
       contactId := none, error := none },
     db, [])
  else processReconcile cfg env fieldMap db p formId token existing

/-- The `POST /webhooks/typeform` handler from `src/index.ts`, starting after
signature verification: reject a payload missing a truthy response token or
form id with status 400 before any side effect, otherwise dedup or
reconcile.  Returns the HTTP answer, the resulting ledger state, and the
remote CRM calls performed. -/
def processWebhook (cfg : AmoConfig) (env : CrmEnv) (fieldMap : FieldMap)
    (db : DbState) (p : Payload) : WebhookResponse × DbState × List CrmCall :=
  let responseToken := p.form_response.token
  let formId := p.form_response.form_id
  if otruthy responseToken && otruthy formId then
    handleValid cfg env fieldMap db p (formId.getD "") (responseToken.getD "")
  else
    ({ status := 400, ok := false, leadId := none, contactId := none,
       error := some "Invalid payload" }, db, [])

/-! ## Call classifiers -/

/-- Is the call a lead creation? -/
def isCreateLeadCall : CrmCall → Bool
  | .createLead _ _ _ => true
  | _ => false

/-- Is the call a contact creation? -/
def isCreateContactCall : CrmCall → Bool
  | .createContact _ _ => true
  | _ => false

/-- Is the action a token refresh? -/
def isRefreshAction : AmoAction → Bool
  | .refreshTok => true
  | _ => false

/-! ## Concrete fixtures used by witnesses and counterexamples -/

/-- A minimal well-formed payload for token `tok1`, form `f1`, event `e1`. -/
def pDup : Payload :=
  { event_id := some "e1", event_type := some "form_response"
    form_response :=
      { form_id := some "f1", token := some "tok1", landing_id := none, submitted_at := none,
        hidden := none, definition := none, answers := none } }

/-- A stored ledger row for token `tok1` that already processed event `e1`
and recorded lead 501 and contact 601. -/
def rowA : SubmissionRow :=
  { form_id := "f1", response_token := "tok1", landing_id := none, submitted_at := none,
    last_event_id := some "e1", last_event_type := some "form_response",
    amo_lead_id := some 501, amo_contact_id := some 601, last_payload := none }

/-- An upsert for token `tok1` carrying only a new event id. -/
def upA : UpsertParams :=
  { formId := "f2", responseToken := "tok1", landingId := none, submittedAt := none,
    lastEventId := some "e2", lastEventType := none, amoLeadId := none, amoContactId := none,
    lastPayload := pDup }

/-- A remote environment where every CRM operation succeeds. -/
def envOk : CrmEnv :=
  { createLeadResp := .ok (some 77), createContactResp := .ok (some 88),
    updateContactResp := .ok (), linkResp := .ok (), updateLeadResp := .ok (),
    addNoteResp := .ok () }

/-- A remote environment where the lead creation fails. -/
def envLeadFail : CrmEnv :=
  { createLeadResp := .error "amoCRM lead create failed: 500 boom",
    createContactResp := .ok (some 88), updateContactResp := .ok (), linkResp := .ok (),
    updateLeadResp := .ok (), addNoteResp := .ok () }

/-- The CRM configuration used by the fixtures. -/
def cfgA : AmoConfig := { pipelineId := 5, initialStatusId := none }

/-- An HTTP environment answering 401 to every attempt, with a succeeding
refresh. -/
def fenv401 : FetchEnv :=
  { responses := fun n => if n = 0 then ⟨401, "unauthorized-a"⟩ else ⟨401, "unauthorized-b"⟩,
    refreshOutcome := .ok () }

/-! ## Theorems -/

/-- **C2.** For every existing Submission row and every upsert: the merged
row replaces the stored one; each optional column is preserved when the new
value is absent and overwritten when it is present (for `submitted_at`, when
the raw string is non-empty, since an empty string binds NULL); `form_id`
and `last_payload` are always overwritten; a non-null `amo_lead_id` is never
set back to null. -/
theorem c2_upsert_merge (db : DbState) (p : UpsertParams) (old : SubmissionRow)
    (h : getSubmissionByToken db p.responseToken = some old) :
    getSubmissionByToken (upsertSubmission db p) p.responseToken = some (mergeRow old p) ∧
    (p.landingId = none → (mergeRow old p).landing_id = old.landing_id) ∧
    (p.submittedAt = none → (mergeRow old p).submitted_at = old.submitted_at) ∧
    (p.lastEventId = none → (mergeRow old p).last_event_id = old.last_event_id) ∧
    (p.lastEventType = none → (mergeRow old p).last_event_type = old.last_event_type) ∧
    (p.amoLeadId = none → (mergeRow old p).amo_lead_id = old.amo_lead_id) ∧
    (p.amoContactId = none → (mergeRow old p).amo_contact_id = old.amo_contact_id) ∧
    (∀ v, p.landingId = some v → (mergeRow old p).landing_id = some v) ∧
    (∀ v, p.submittedAt = some v → v ≠ "" → (mergeRow old p).submitted_at = some v) ∧
    (∀ v, p.lastEventId = some v → (mergeRow old p).last_event_id = some v) ∧
    (∀ v, p.lastEventType = some v → (mergeRow old p).last_event_type = some v) ∧
    (∀ v, p.amoLeadId = some v → (mergeRow old p).amo_lead_id = some v) ∧
    (∀ v, p.amoContactId = some v → (mergeRow old p).amo_contact_id = some v) ∧
    (mergeRow old p).form_id = p.formId ∧
    (mergeRow old p).last_payload = some p.lastPayload ∧
    (old.amo_lead_id ≠ none → (mergeRow old p).amo_lead_id ≠ none) := by
  have hkey : old.response_token = p.responseToken := by
    have hp := List.find?_some h
    simpa using hp
  refine ⟨?_, ?_, ?_, ?_, ?_, ?_, ?_, ?_, ?_, ?_, ?_, ?_, ?_, ?_, ?_, ?_⟩
  · simp only [upsertSubmission, getSubmissionByToken] at h ⊢
    rw [h]
    simp [List.find?_cons, mergeRow, hkey]
  · intro h'; simp [mergeRow, h']
  · intro h'; simp [mergeRow, h', submittedAtValue]
  · intro h'; simp [mergeRow, h']
  · intro h'; simp [mergeRow, h']
  · intro h'; simp [mergeRow, h']
  · intro h'; simp [mergeRow, h']
  · intro v h'; simp [mergeRow, h']
  · intro v h' h''; simp [mergeRow, h', submittedAtValue, h'']
  · intro v h'; simp [mergeRow, h']
  · intro v h'; simp [mergeRow, h']
  · intro v h'; simp [mergeRow, h']
  · intro v h'; simp [mergeRow, h']
  · simp [mergeRow]
  · simp [mergeRow]
  · intro h'
    rcases hv : p.amoLeadId with _ | v
    · simpa [mergeRow, hv] using h'
    · simp [mergeRow, hv]

/-- Witness for C2 at a concrete row and upsert. -/
theorem c2_upsert_merge_witness :
    getSubmissionByToken ([rowA] : DbState) upA.responseToken = some rowA ∧
    getSubmissionByToken (upsertSubmission [rowA] upA) upA.responseToken = some (mergeRow rowA upA) :=
  ⟨by decide, (c2_upsert_merge [rowA] upA rowA (by decide)).1⟩

/-- The trace of a chained step: the first trace, then — on success — the
continuation's. -/
theorem andThen_fst {α β : Type} (s : List CrmCall × Except String α)
    (k : α → List CrmCall × Except String β) :
    (andThen s k).1 = s.1 ++ (match s.2 with | .error _ => [] | .ok a => (k a).1) := by
  unfold andThen
  cases h : s.2 <;> simp [h]

/-- Filtering distributes over the chained trace. -/
theorem filter_andThen {α β : Type} (p : CrmCall → Bool) (s : List CrmCall × Except String α)
    (k : α → List CrmCall × Except String β) :
    ((andThen s k).1).filter p =
      s.1.filter p ++ (match s.2 with | .error _ => [] | .ok a => ((k a).1).filter p) := by
  rw [andThen_fst]
  cases h : s.2 <;> simp [List.filter_append]

/-- A truthy optional id stays truthy after the `getD 0` extraction. -/
theorem ontruthy_some_getD (o : Option Nat) (h : ontruthy o = true) :
    ontruthy (some (o.getD 0)) = true := by
  cases o <;> simp_all [ontruthy]

/-- The contact phase never records a lead creation. -/
theorem contactPhase_filter_lead (env : CrmEnv) (inl hcb : Bool) (eci : Option Nat)
    (contact : ContactBits) :
    ((contactPhase env inl hcb eci contact).1).filter isCreateLeadCall = [] := by
  unfold contactPhase callCreateContact callUpdateContact
  repeat' split
  all_goals try simp_all [isCreateLeadCall, List.filter_append, Except.map, ontruthy_some_getD]
  all_goals (repeat' split <;>
    try simp_all [isCreateLeadCall, List.filter_append, Except.map, ontruthy_some_getD])

/-- **C8.** The lead creations recorded by a reconciliation: for a new lead
(no prior lead id) exactly one, named `"Typeform: " ++ (email, else phone,
else "submission")`; when an existing lead id is reused, none at all. -/
theorem c8_lead_naming (cfg : AmoConfig) (env : CrmEnv)
    (existingLeadId existingContactId : Option Nat) (summary : String)
    (cfs : List LeadCustomFieldValue) (contact : ContactBits) :
    ((createOrUpdateByTypeform cfg env existingLeadId existingContactId summary cfs contact).1.filter
        isCreateLeadCall) =
      match existingLeadId with
      | none => [CrmCall.createLead ("Typeform: " ++ ((contact.email <|> contact.phone).getD "submission"))
          cfg.pipelineId cfg.initialStatusId]
      | some _ => [] := by
  cases existingLeadId <;>
    simp only [createOrUpdateByTypeform, filter_andThen, contactPhase_filter_lead,
      callCreateLead, callLink, callUpdateLeadFields, callAddNote]
  all_goals (repeat' split <;> try simp_all [isCreateLeadCall])

/-- With the retry budget exhausted (`retryOn401 = false`), `amoFetch` is a
single request whose response is returned as-is. -/
theorem amoFetch_zero (env : FetchEnv) (a : Nat) :
    amoFetch env a 0 = ([.request a], .ok (env.responses a)) := by
  unfold amoFetch
  split <;> simp_all

/-- **C3.** The retry-on-401 policy of an authenticated call: a first 401
triggers exactly one refresh and exactly one replay whose response is final;
a second 401 surfaces as a fatal error carrying status 401 and the body,
with exactly one refresh in the whole interaction (the retry depth is
bounded at one); a non-401 first response is never retried and a failing one
propagates immediately with its status and body. -/
theorem c3_retry_on_401 (env : FetchEnv) (op : String) :
    ((env.responses 0).status = 401 → env.refreshOutcome = .ok () →
      (amoFetch env 0 1).1 = [.request 0, .refreshTok, .request 1] ∧
      (amoFetch env 0 1).2 = .ok (env.responses 1)) ∧
    ((env.responses 0).status = 401 → env.refreshOutcome = .ok () →
      (env.responses 1).status = 401 →
      (amoCallChecked env op).2 =
        .error ("amoCRM " ++ op ++ " failed: " ++ "401" ++ " " ++ (env.responses 1).body) ∧
      ((amoCallChecked env op).1.countP isRefreshAction) = 1) ∧
    ((env.responses 0).status ≠ 401 →
      (amoFetch env 0 1).1 = [.request 0] ∧
      (amoFetch env 0 1).2 = .ok (env.responses 0) ∧
      (respOk (env.responses 0) = false →
        (amoCallChecked env op).2 =
          .error ("amoCRM " ++ op ++ " failed: " ++ toString (env.responses 0).status ++ " " ++
            (env.responses 0).body))) := by
  have hfetch : (env.responses 0).status = 401 → env.refreshOutcome = .ok () →
      amoFetch env 0 1 = ([.request 0, .refreshTok, .request 1], .ok (env.responses 1)) := by
    intro h1 h2
    unfold amoFetch
    simp [h1, h2, amoFetch_zero]
  refine ⟨fun h1 h2 => by simp [hfetch h1 h2], fun h1 h2 h3 => ?_, fun h1 => ?_⟩
  · have hs : toString (env.responses 1).status = "401" := by rw [h3]; rfl
    have hok : respOk (env.responses 1) = false := by simp [respOk, h3]
    unfold amoCallChecked
    rw [hfetch h1 h2]
    simp [hok, hs, List.countP_cons, isRefreshAction]
  · have hone : amoFetch env 0 1 = ([.request 0], .ok (env.responses 0)) := by
      unfold amoFetch
      simp [h1]
    refine ⟨by simp [hone], by simp [hone], fun hbad => ?_⟩
    unfold amoCallChecked
    rw [hone]
    simp [hbad]

/-- Witness for C3: two consecutive 401s with a succeeding refresh yield the
fatal error with exactly one refresh. -/
theorem c3_retry_on_401_witness :
    (fenv401.responses 0).status = 401 ∧ fenv401.refreshOutcome = .ok () ∧
    (fenv401.responses 1).status = 401 ∧
    (amoCallChecked fenv401 "lead create").2 =
      .error "amoCRM lead create failed: 401 unauthorized-b" ∧
    ((amoCallChecked fenv401 "lead create").1.countP isRefreshAction) = 1 := by
  have h := (c3_retry_on_401 fenv401 "lead create").2.1 (by rfl) (by rfl) (by rfl)
  refine ⟨rfl, rfl, rfl, ?_, h.2⟩
  rw [h.1]
  rfl

/-- **C5.** For a new-lead reconciliation with contact information present
and all remote calls succeeding, the call sequence is exactly create-lead,
create-contact, link, optionally update-lead-custom-fields (when the field
set is non-empty), then add-note; the note is the last remote call. -/
theorem c5_call_order (cfg : AmoConfig) (env : CrmEnv) (summary : String)
    (cfs : List LeadCustomFieldValue) (contact : ContactBits) (L C : Nat)
    (hbits : (otruthy contact.email || otruthy contact.phone || otruthy contact.name) = true)
    (hl : env.createLeadResp = .ok (some L)) (hl0 : L ≠ 0)
    (hc : env.createContactResp = .ok (some C)) (hc0 : C ≠ 0)
    (hlink : env.linkResp = .ok ()) (hupd : env.updateLeadResp = .ok ())
    (hnote : env.addNoteResp = .ok ()) :
    (createOrUpdateByTypeform cfg env none none summary cfs contact).1 =
      ([CrmCall.createLead ("Typeform: " ++ ((contact.email <|> contact.phone).getD "submission"))
         cfg.pipelineId cfg.initialStatusId,
       CrmCall.createContact (contact.name.getD (contact.email.getD (contact.phone.getD "Typeform contact")))
         (buildContactCustomFields contact.phone contact.email),
       CrmCall.link L C] ++
      (if cfs.isEmpty then [] else [CrmCall.updateLeadFields L cfs])) ++
      [CrmCall.addNote L summary] ∧
    (createOrUpdateByTypeform cfg env none none summary cfs contact).2 = .ok (L, some C) ∧
    (createOrUpdateByTypeform cfg env none none summary cfs contact).1.getLast? =
      some (CrmCall.addNote L summary) := by
  have htr : (createOrUpdateByTypeform cfg env none none summary cfs contact) =
      (([CrmCall.createLead ("Typeform: " ++ ((contact.email <|> contact.phone).getD "submission"))
         cfg.pipelineId cfg.initialStatusId,
       CrmCall.createContact (contact.name.getD (contact.email.getD (contact.phone.getD "Typeform contact")))
         (buildContactCustomFields contact.phone contact.email),
       CrmCall.link L C] ++
      (if cfs.isEmpty then [] else [CrmCall.updateLeadFields L cfs])) ++
      [CrmCall.addNote L summary], .ok (L, some C)) := by
    simp only [createOrUpdateByTypeform, andThen, contactPhase, callCreateLead,
      callCreateContact, callLink, callUpdateLeadFields, callAddNote, hl, hc, hlink, hupd, hnote]
    by_cases hcfs : cfs = [] <;>
      simp [ontruthy, hbits, hl0, hc0, Except.map, hcfs]
  refine ⟨by rw [htr], by rw [htr], ?_⟩
  rw [htr]
  by_cases hcfs : cfs = [] <;>
    simp [hcfs, List.getLast?_cons_cons, List.getLast?_singleton]


/-- Witness for C5 at a concrete environment (lead 77, contact 88). -/
theorem c5_call_order_witness :
    (createOrUpdateByTypeform cfgA envOk none none "s" []
        ⟨some "Nm", some "a@b.c", none⟩).1.getLast? = some (CrmCall.addNote 77 "s") ∧
    (createOrUpdateByTypeform cfgA envOk none none "s" []
        ⟨some "Nm", some "a@b.c", none⟩).2 = .ok (77, some 88) :=
  ⟨(c5_call_order cfgA envOk "s" [] ⟨some "Nm", some "a@b.c", none⟩ 77 88 (by decide) rfl
      (by decide) rfl (by decide) rfl rfl rfl).2.2,
   (c5_call_order cfgA envOk "s" [] ⟨some "Nm", some "a@b.c", none⟩ 77 88 (by decide) rfl
      (by decide) rfl (by decide) rfl rfl rfl).2.1⟩

/-- The contact custom fields are empty exactly when phone and email are
both non-truthy. -/
theorem buildContactCustomFields_eq_nil_iff (ph e : Option String) :
    buildContactCustomFields ph e = [] ↔ otruthy ph = false ∧ otruthy e = false := by
  unfold buildContactCustomFields
  cases hp : otruthy ph <;> cases he : otruthy e <;> simp

/-- Reconciliation path for an existing lead id `L` with no known contact and
contact bits present, all remote calls succeeding: create the contact, update
it, link it to `L`, optionally apply custom fields, add the note; no lead is
created and the result carries `L` with the new contact id. -/
theorem createOrUpdate_existing_lead (cfg : AmoConfig) (env : CrmEnv) (summary : String)
    (cfs : List LeadCustomFieldValue) (contact : ContactBits) (L C : Nat)
    (hbits : (otruthy contact.email || otruthy contact.phone || otruthy contact.name) = true)
    (hL0 : L ≠ 0)
    (hc : env.createContactResp = .ok (some C)) (hc0 : C ≠ 0)
    (hu : env.updateContactResp = .ok ()) (hlink : env.linkResp = .ok ())
    (hupd : env.updateLeadResp = .ok ()) (hnote : env.addNoteResp = .ok ()) :
    createOrUpdateByTypeform cfg env (some L) none summary cfs contact =
      (([CrmCall.createContact
           (contact.name.getD (contact.email.getD (contact.phone.getD "Typeform contact")))
           (buildContactCustomFields contact.phone contact.email)] ++
        (callUpdateContact env C contact.name contact.email contact.phone).1 ++
        [CrmCall.link L C] ++
        (if cfs.isEmpty then [] else [CrmCall.updateLeadFields L cfs])) ++
        [CrmCall.addNote L summary],
       .ok (L, some C)) := by
  by_cases hcf : buildContactCustomFields contact.phone contact.email = []
  · by_cases hn : otruthy contact.name = true
    · simp only [createOrUpdateByTypeform, andThen, contactPhase, callCreateLead,
        callCreateContact, callUpdateContact, callLink, callUpdateLeadFields, callAddNote,
        hc, hu, hlink, hupd, hnote]
      by_cases hcfs : cfs = [] <;>
        simp [ontruthy, hbits, hL0, hc0, Except.map, hcfs, hn, hcf]
    · obtain ⟨hp2, he2⟩ := (buildContactCustomFields_eq_nil_iff _ _).mp hcf
      exact absurd hbits (by simp [hn, hp2, he2])
  · have hep : otruthy contact.email = true ∨ otruthy contact.phone = true := by
      by_cases he : otruthy contact.email = true
      · exact Or.inl he
      · by_cases hp : otruthy contact.phone = true
        · exact Or.inr hp
        · exact absurd ((buildContactCustomFields_eq_nil_iff _ _).mpr
            ⟨by simpa using hp, by simpa using he⟩) hcf
    by_cases hn : otruthy contact.name = true <;>
      · simp only [createOrUpdateByTypeform, andThen, contactPhase, callCreateLead,
          callCreateContact, callUpdateContact, callLink, callUpdateLeadFields, callAddNote,
          hc, hu, hlink, hupd, hnote]
        by_cases hcfs : cfs = [] <;>
          simp [ontruthy, hbits, hL0, hc0, Except.map, hcfs, hn, hcf, hep]

/-- `updateContact` never records a creation or a link call. -/
theorem callUpdateContact_no_create (env : CrmEnv) (cid : Nat) (n e ph : Option String) :
    (callUpdateContact env cid n e ph).1.countP isCreateContactCall = 0 ∧
    (callUpdateContact env cid n e ph).1.countP isCreateLeadCall = 0 ∧
    ∀ lL lC : Nat, CrmCall.link lL lC ∉ (callUpdateContact env cid n e ph).1 := by
  unfold callUpdateContact
  by_cases hg : otruthy n = false ∧ buildContactCustomFields ph e = [] <;>
    simp [hg, isCreateContactCall, isCreateLeadCall]

/-- **C4.** For an event whose ledger row has a non-null lead id `L` and no
contact id, that is not a duplicate and whose extracted contact bits are
non-empty, a successful reconciliation creates exactly one contact, links it
to `L`, and creates no second lead. -/
theorem c4_existing_lead_new_contact (cfg : AmoConfig) (env : CrmEnv) (fm : FieldMap)
    (db : DbState) (p : Payload) (t f : String) (r : SubmissionRow) (L C : Nat)
    (ht : p.form_response.token = some t) (ht' : t ≠ "")
    (hf : p.form_response.form_id = some f) (hf' : f ≠ "")
    (hr : getSubmissionByToken db t = some r)
    (hL : r.amo_lead_id = some L) (hL0 : L ≠ 0)
    (hC : r.amo_contact_id = none)
    (hdup : isDuplicate (some r) p.event_id = false)
    (hbits : (otruthy (extractContactBits p).email || otruthy (extractContactBits p).phone ||
      otruthy (extractContactBits p).name) = true)
    (hc : env.createContactResp = .ok (some C)) (hc0 : C ≠ 0)
    (hu : env.updateContactResp = .ok ()) (hlink : env.linkResp = .ok ())
    (hupd : env.updateLeadResp = .ok ()) (hnote : env.addNoteResp = .ok ()) :
    ((processWebhook cfg env fm db p).2.2.countP isCreateContactCall = 1) ∧
    (CrmCall.link L C ∈ (processWebhook cfg env fm db p).2.2) ∧
    ((processWebhook cfg env fm db p).2.2.countP isCreateLeadCall = 0) := by
  have hrec := createOrUpdate_existing_lead cfg env (stringifyAnswers p)
    (buildLeadCustomFields fm p) (extractContactBits p) L C hbits hL0 hc hc0 hu hlink hupd hnote
  have hweb : processWebhook cfg env fm db p = processReconcile cfg env fm db p f t (some r) := by
    unfold processWebhook handleValid
    simp [ht, hf, otruthy, ht', hf', findExisting, hr, hdup]
  rw [hweb]
  unfold processReconcile
  simp only [hL, hC, Option.bind_some, Option.some_bind]
  rw [hrec]
  have hupc := callUpdateContact_no_create env C (extractContactBits p).name
    (extractContactBits p).email (extractContactBits p).phone
  refine ⟨?_, ?_, ?_⟩
  · simp [List.countP_append, List.countP_cons, isCreateContactCall, hupc.1]
  · simp [List.mem_append]
  · simp [List.countP_append, List.countP_cons, isCreateLeadCall, hupc.2.1]

/-- A ledger row holding lead 501 and no contact. -/
def rowB : SubmissionRow :=
  { form_id := "f1", response_token := "tok1", landing_id := none, submitted_at := none,
    last_event_id := some "e1", last_event_type := none,
    amo_lead_id := some 501, amo_contact_id := none, last_payload := none }

/-- An email answer. -/
def ansEmail : Answer :=
  { type := "email", field := { id := "q2", ref := none }, text := none,
    email := some "a@b.c", phone_number := none, boolean := none, number := none,
    date := none, choice := none, choices := none }

/-- A fresh event (id `e2`) for token `tok1` carrying an email answer. -/
def pNew : Payload :=
  { event_id := some "e2", event_type := some "form_response"
    form_response :=
      { form_id := some "f1", token := some "tok1", landing_id := none, submitted_at := none,
        hidden := none, definition := none, answers := some [ansEmail] } }

/-- Witness for C4: the spec's concrete scenario (lead 501, new contact 88). -/
theorem c4_existing_lead_new_contact_witness :
    ((processWebhook cfgA envOk [] [rowB] pNew).2.2.countP isCreateContactCall = 1) ∧
    (CrmCall.link 501 88 ∈ (processWebhook cfgA envOk [] [rowB] pNew).2.2) ∧
    ((processWebhook cfgA envOk [] [rowB] pNew).2.2.countP isCreateLeadCall = 0) :=
  c4_existing_lead_new_contact cfgA envOk [] [rowB] pNew "tok1" "f1" rowB 501 88
    rfl (by decide) rfl (by decide) (by decide) rfl (by decide) rfl (by decide) (by decide)
    rfl (by decide) rfl rfl rfl rfl

/-- **C1 (amended).** A duplicate delivery — token already in the ledger with
`last_event_id` equal to the event's non-empty event id — performs no CRM
call, leaves the ledger unchanged, and answers 200 with the stored lead id
and no contact id; replaying on the resulting state reproduces the same
answer. -/
theorem c1_duplicate_replay (cfg : AmoConfig) (env : CrmEnv) (fm : FieldMap)
    (db : DbState) (p : Payload) (t : String) (r : SubmissionRow) (e : String)
    (ht : p.form_response.token = some t) (ht' : t ≠ "")
    (hf : otruthy p.form_response.form_id = true)
    (hr : getSubmissionByToken db t = some r)
    (he : p.event_id = some e) (he' : e ≠ "")
    (hl : r.last_event_id = some e) :
    processWebhook cfg env fm db p =
      ({ status := 200, ok := true, leadId := r.amo_lead_id, contactId := none, error := none },
       db, []) ∧
    processWebhook cfg env fm ((processWebhook cfg env fm db p).2.1) p =
      processWebhook cfg env fm db p := by
  have h1 : processWebhook cfg env fm db p =
      ({ status := 200, ok := true, leadId := r.amo_lead_id, contactId := none, error := none },
       db, []) := by
    rcases hff : p.form_response.form_id with _ | f
    · rw [hff] at hf
      simp [otruthy] at hf
    · rw [hff] at hf
      have hf2 : f ≠ "" := by simpa [otruthy] using hf
      unfold processWebhook handleValid
      simp [ht, otruthy, ht', hff, hf2, findExisting, hr, isDuplicate, he, he', hl]
  exact ⟨h1, by simp [h1]⟩

/-- Counterexample for C1 as stated: on a duplicate whose ledger row stores
contact id 601, the handler's dedup answer carries no contact id at all
(only the stored lead id), so "returns both the stored lead id and the
stored contact id" fails. -/
theorem c1_counterexample :
    getSubmissionByToken ([rowA] : DbState) "tok1" = some rowA ∧
    rowA.amo_contact_id = some 601 ∧
    pDup.event_id = some "e1" ∧ rowA.last_event_id = some "e1" ∧
    (processWebhook cfgA envOk [] [rowA] pDup).2.2 = [] ∧
    (processWebhook cfgA envOk [] [rowA] pDup).1.contactId = none ∧
    (processWebhook cfgA envOk [] [rowA] pDup).1.leadId = some 501 := by
  decide

/-- Witness for C1 (amended) at the concrete duplicate fixture. -/
theorem c1_duplicate_replay_witness :
    processWebhook cfgA envOk [] [rowA] pDup =
      ({ status := 200, ok := true, leadId := some 501, contactId := none, error := none },
       ([rowA] : DbState), []) := by
  have h := (c1_duplicate_replay cfgA envOk [] [rowA] pDup "tok1" rowA "e1"
    rfl (by decide) (by decide) (by decide) rfl (by decide) rfl).1
  simpa using h

/-- A contact phase that recorded no call ended without an error. -/
theorem contactPhase_nil_ok (env : CrmEnv) (inl hcb : Bool) (eci : Option Nat)
    (c : ContactBits) (h : (contactPhase env inl hcb eci c).1 = []) :
    ∃ v, (contactPhase env inl hcb eci c).2 = .ok v := by
  unfold contactPhase callCreateContact callUpdateContact at h ⊢
  repeat' split at h <;> try simp_all [Except.map, ontruthy_some_getD]
  all_goals (repeat' split <;> try simp_all [Except.map, ontruthy_some_getD])

/-- Every reconciliation attempts at least one remote call (the failing call
itself, or at worst the unconditional final note). -/
theorem createOrUpdate_trace_ne_nil (cfg : AmoConfig) (env : CrmEnv)
    (eli eci : Option Nat) (s : String) (cfs : List LeadCustomFieldValue) (c : ContactBits) :
    (createOrUpdateByTypeform cfg env eli eci s cfs c).1 ≠ [] := by
  intro hnil
  cases eli
  case some l =>
    simp only [createOrUpdateByTypeform, andThen_fst, List.nil_append,
      List.append_eq_nil] at hnil
    obtain ⟨h1, h2⟩ := hnil
    obtain ⟨v, hv⟩ := contactPhase_nil_ok env _ _ _ _ h1
    rw [hv] at h2
    by_cases hvt : ontruthy v = true <;>
      by_cases hcfs : cfs.isEmpty <;>
        simp [hvt, hcfs, callLink, callUpdateLeadFields, callAddNote] at h2
  case none =>
    simp only [createOrUpdateByTypeform, andThen_fst, callCreateLead] at hnil
    simp [List.append_eq_nil] at hnil

/-- The reconciliation tail reports exactly the calls of
`createOrUpdateByTypeform`, on success and on failure alike. -/
theorem processReconcile_trace (cfg : AmoConfig) (env : CrmEnv) (fm : FieldMap)
    (db : DbState) (p : Payload) (f t : String) (ex : Option SubmissionRow) :
    (processReconcile cfg env fm db p f t ex).2.2 =
      (createOrUpdateByTypeform cfg env (ex.bind (·.amo_lead_id)) (ex.bind (·.amo_contact_id))
        (stringifyAnswers p) (buildLeadCustomFields fm p) (extractContactBits p)).1 := by
  unfold processReconcile
  dsimp only
  split <;> rfl

/-- An event without an event id is never classified as a duplicate. -/
theorem isDuplicate_none (ex : Option SubmissionRow) : isDuplicate ex none = false := by
  cases ex <;> simp [isDuplicate, otruthy]

/-- Duplicate classification requires a found row and a present non-empty
event id equal to the row's `last_event_id`. -/
theorem isDuplicate_requires (ex : Option SubmissionRow) (eid : Option String)
    (h : isDuplicate ex eid = true) :
    ∃ r e, ex = some r ∧ eid = some e ∧ e ≠ "" ∧ r.last_event_id = some e := by
  cases ex with
  | none => simp [isDuplicate] at h
  | some r =>
    cases eid with
    | none => simp [isDuplicate, otruthy] at h
    | some e =>
      simp [isDuplicate, otruthy] at h
      exact ⟨r, e, rfl, rfl, h.1, h.2⟩

/-- **C9.** An event with an absent event id is never deduplicated: the full
reconciliation runs (with a non-empty remote-call trace), even when a ledger
record exists; and the duplicate test demands a found record together with a
present event id equal to its `last_event_id`. -/
theorem c9_absent_event_id (cfg : AmoConfig) (env : CrmEnv) (fm : FieldMap)
    (db : DbState) (p : Payload) (t f : String)
    (ht : p.form_response.token = some t) (ht' : t ≠ "")
    (hf : p.form_response.form_id = some f) (hf' : f ≠ "")
    (he : p.event_id = none) :
    processWebhook cfg env fm db p = processReconcile cfg env fm db p f t (findExisting db p f t) ∧
    (processWebhook cfg env fm db p).2.2 ≠ [] ∧
    (∀ ex : Option SubmissionRow, isDuplicate ex none = false) ∧
    (∀ (ex : Option SubmissionRow) (eid : Option String), isDuplicate ex eid = true →
      ∃ r e, ex = some r ∧ eid = some e ∧ e ≠ "" ∧ r.last_event_id = some e) := by
  have hmain : processWebhook cfg env fm db p =
      processReconcile cfg env fm db p f t (findExisting db p f t) := by
    unfold processWebhook handleValid
    simp [ht, hf, otruthy, ht', hf', he, isDuplicate_none]
  refine ⟨hmain, ?_, isDuplicate_none, isDuplicate_requires⟩
  rw [hmain, processReconcile_trace]
  exact createOrUpdate_trace_ne_nil cfg env _ _ _ _ _

/-- A token-and-form-only payload with no event id. -/
def pNoEvent : Payload :=
  { event_id := none, event_type := none
    form_response :=
      { form_id := some "f1", token := some "tokX", landing_id := none, submitted_at := none,
        hidden := none, definition := none, answers := none } }

/-- Witness for C9 on an empty ledger. -/
theorem c9_absent_event_id_witness :
    processWebhook cfgA envOk [] [] pNoEvent =
      processReconcile cfgA envOk [] [] pNoEvent "f1" "tokX"
        (findExisting [] pNoEvent "f1" "tokX") ∧
    (processWebhook cfgA envOk [] [] pNoEvent).2.2 ≠ [] :=
  ⟨(c9_absent_event_id cfgA envOk [] [] pNoEvent "tokX" "f1" rfl (by decide) rfl (by decide)
      rfl).1,
   (c9_absent_event_id cfgA envOk [] [] pNoEvent "tokX" "f1" rfl (by decide) rfl (by decide)
      rfl).2.1⟩

/-- **C6.** Failures never touch the ledger: a malformed payload (missing or
empty token or form id) is rejected with status 400 before any CRM call or
ledger write; a failing reconciliation leaves the ledger unchanged and is
answered with status 500 carrying the error; and any ledger change implies
the reconciliation returned successfully. -/
theorem c6_failure_no_ledger_write (cfg : AmoConfig) (env : CrmEnv) (fm : FieldMap)
    (db : DbState) (p : Payload) :
    (¬ ((otruthy p.form_response.token && otruthy p.form_response.form_id) = true) →
      processWebhook cfg env fm db p =
        ({ status := 400, ok := false, leadId := none, contactId := none,
           error := some "Invalid payload" }, db, [])) ∧
    (∀ t f err, p.form_response.token = some t → t ≠ "" →
      p.form_response.form_id = some f → f ≠ "" →
      isDuplicate (findExisting db p f t) p.event_id = false →
      (createOrUpdateByTypeform cfg env
          ((findExisting db p f t).bind (·.amo_lead_id))
          ((findExisting db p f t).bind (·.amo_contact_id))
          (stringifyAnswers p) (buildLeadCustomFields fm p) (extractContactBits p)).2 =
        .error err →
      (processWebhook cfg env fm db p).2.1 = db ∧
      (processWebhook cfg env fm db p).1.status = 500 ∧
      (processWebhook cfg env fm db p).1.error = some err) ∧
    (∀ t f, p.form_response.token = some t → t ≠ "" →
      p.form_response.form_id = some f → f ≠ "" →
      (processWebhook cfg env fm db p).2.1 ≠ db →
      ∃ ids, (createOrUpdateByTypeform cfg env
          ((findExisting db p f t).bind (·.amo_lead_id))
          ((findExisting db p f t).bind (·.amo_contact_id))
          (stringifyAnswers p) (buildLeadCustomFields fm p) (extractContactBits p)).2 =
        .ok ids) := by
  refine ⟨?_, ?_, ?_⟩
  · intro h
    unfold processWebhook
    simp [h]
  · intro t f err ht ht' hf hf' hdup herr
    have hv : processWebhook cfg env fm db p =
        processReconcile cfg env fm db p f t (findExisting db p f t) := by
      unfold processWebhook handleValid
      simp [ht, hf, otruthy, ht', hf', hdup]
    rw [hv]
    unfold processReconcile
    simp [herr]
  · intro t f ht ht' hf hf' hne
    by_cases hdup : isDuplicate (findExisting db p f t) p.event_id = true
    · exfalso
      apply hne
      unfold processWebhook handleValid
      simp [ht, hf, otruthy, ht', hf', hdup]
    · have hdup2 : isDuplicate (findExisting db p f t) p.event_id = false := by
        simpa using hdup
      cases hres : (createOrUpdateByTypeform cfg env
          ((findExisting db p f t).bind (·.amo_lead_id))
          ((findExisting db p f t).bind (·.amo_contact_id))
          (stringifyAnswers p) (buildLeadCustomFields fm p) (extractContactBits p)).2 with
      | error e =>
        exfalso
        apply hne
        have hv : processWebhook cfg env fm db p =
            processReconcile cfg env fm db p f t (findExisting db p f t) := by
          unfold processWebhook handleValid
          simp [ht, hf, otruthy, ht', hf', hdup2]
        rw [hv]
        unfold processReconcile
        simp [hres]
      | ok ids => exact ⟨ids, rfl⟩

/-- Witness for C6: a failing lead creation leaves the empty ledger empty
and answers 500. -/
theorem c6_failure_no_ledger_write_witness :
    (processWebhook cfgA envLeadFail [] [] pDup).2.1 = ([] : DbState) ∧
    (processWebhook cfgA envLeadFail [] [] pDup).1.status = 500 :=
  have h := (c6_failure_no_ledger_write cfgA envLeadFail [] [] pDup).2.1 "tok1" "f1"
    "amoCRM lead create failed: 500 boom" rfl (by decide) rfl (by decide) (by rfl) (by rfl)
  ⟨h.1, h.2.1⟩

/-- The first answer carrying a truthy email. -/
def firstAnswerEmail (l : List Answer) : Option String :=
  l.findSome? (fun a => if otruthy a.email then a.email else none)

/-- The first answer carrying a truthy phone number. -/
def firstAnswerPhone (l : List Answer) : Option String :=
  l.findSome? (fun a => if otruthy a.phone_number then a.phone_number else none)

/-- The first text-type answer whose trimmed text is longer than one
character, trimmed. -/
def firstAnswerName (l : List Answer) : Option String :=
  l.findSome? (fun a =>
    if a.type = "text" ∧ otruthy a.text ∧ (a.text.getD "").trim.length > 1
    then some (a.text.getD "").trim else none)

/-- A truthy optional string is a non-empty `some`. -/
theorem otruthy_exists {o : Option String} (h : otruthy o = true) :
    ∃ s, o = some s ∧ s ≠ "" := by
  cases o <;> simp_all [otruthy]

/-- A non-empty string is truthy. -/
theorem otruthy_some_true {s : String} (h : s ≠ "") : otruthy (some s) = true := by
  simp [otruthy, h]

/-- The answer loop of `extractContactBits` computes the first qualifying
answer for each slot, with an already-truthy accumulator left untouched. -/
theorem contactFold (l : List Answer) (e ph n : Option String) :
    l.foldl contactStep (e, ph, n) =
      ((if otruthy e then e else (firstAnswerEmail l <|> e)),
       (if otruthy ph then ph else (firstAnswerPhone l <|> ph)),
       (if otruthy n then n else (firstAnswerName l <|> n))) := by
  induction l generalizing e ph n with
  | nil =>
    by_cases he : otruthy e = true <;> by_cases hp : otruthy ph = true <;>
      by_cases hn : otruthy n = true <;>
        simp [firstAnswerEmail, firstAnswerPhone, firstAnswerName, he, hp, hn]
  | cons a l ih =>
    rw [List.foldl_cons]
    dsimp only [contactStep]
    rw [ih]
    refine Prod.ext ?_ (Prod.ext ?_ ?_)
    · by_cases he : otruthy e = true
      · simp [he]
      · by_cases ha : otruthy a.email = true
        · obtain ⟨s, hs, hs'⟩ := otruthy_exists ha
          have hos := otruthy_some_true hs'
          simp [he, ha, firstAnswerEmail, List.findSome?_cons, hs, hos]
        · simp [he, ha, firstAnswerEmail, List.findSome?_cons]
    · by_cases hp : otruthy ph = true
      · simp [hp]
      · by_cases ha : otruthy a.phone_number = true
        · obtain ⟨s, hs, hs'⟩ := otruthy_exists ha
          have hos := otruthy_some_true hs'
          simp [hp, ha, firstAnswerPhone, List.findSome?_cons, hs, hos]
        · simp [hp, ha, firstAnswerPhone, List.findSome?_cons]
    · by_cases hn : otruthy n = true
      · simp [hn]
      · by_cases ha : a.type = "text" ∧ otruthy a.text = true ∧ (a.text.getD "").trim.length > 1
        · have htr : ((a.text.getD "").trim) ≠ "" := by
            intro hz
            have h2 := ha.2.2
            rw [hz] at h2
            simp at h2
          have hos := otruthy_some_true htr
          simp [hn, ha, firstAnswerName, List.findSome?_cons, hos]
        · simp [hn, ha, firstAnswerName, List.findSome?_cons]

/-- The answer-derived email slot is absent or truthy. -/
theorem firstAnswerEmail_truthy (l : List Answer) :
    firstAnswerEmail l = none ∨ otruthy (firstAnswerEmail l) = true := by
  cases hfs : firstAnswerEmail l with
  | none => exact Or.inl rfl
  | some s =>
    right
    obtain ⟨a, _, hfa⟩ := List.exists_of_findSome?_eq_some hfs
    by_cases he : otruthy a.email = true
    · rw [if_pos he] at hfa
      rw [hfa] at he
      exact he
    · simp [he] at hfa

/-- The answer-derived phone slot is absent or truthy. -/
theorem firstAnswerPhone_truthy (l : List Answer) :
    firstAnswerPhone l = none ∨ otruthy (firstAnswerPhone l) = true := by
  cases hfs : firstAnswerPhone l with
  | none => exact Or.inl rfl
  | some s =>
    right
    obtain ⟨a, _, hfa⟩ := List.exists_of_findSome?_eq_some hfs
    by_cases he : otruthy a.phone_number = true
    · rw [if_pos he] at hfa
      rw [hfa] at he
      exact he
    · simp [he] at hfa

/-- The answer-derived name slot is absent or truthy. -/
theorem firstAnswerName_truthy (l : List Answer) :
    firstAnswerName l = none ∨ otruthy (firstAnswerName l) = true := by
  cases hfs : firstAnswerName l with
  | none => exact Or.inl rfl
  | some s =>
    right
    obtain ⟨a, _, hfa⟩ := List.exists_of_findSome?_eq_some hfs
    by_cases he : a.type = "text" ∧ otruthy a.text = true ∧ (a.text.getD "").trim.length > 1
    · rw [if_pos he] at hfa
      have hlen := he.2.2
      obtain rfl : (a.text.getD "").trim = s := by simpa using hfa
      apply otruthy_some_true
      intro hz
      rw [hz] at hlen
      simp at hlen
    · simp [he] at hfa

/-- The hidden-parameter fallback fills only an empty slot, and only with a
truthy hidden value. -/
theorem fallbackStep (X h : Option String) (hX : X = none ∨ otruthy X = true) :
    (if ¬ otruthy X = true ∧ otruthy h = true then h else X) = (X <|> truthyOpt h) := by
  rcases hX with hX | hX
  · subst hX
    by_cases hh : otruthy h = true <;> simp [otruthy, truthyOpt, hh]
  · obtain ⟨s, hs, _⟩ := otruthy_exists hX
    subst hs
    simp [hX]

/-- **C10.** `extractContactBits` gives answers strict priority over hidden
parameters: each slot is the first qualifying answer value, and a hidden
value is used only when no answer supplied that slot; a slot is absent when
neither source provides a value. -/
theorem c10_contact_priority (p : Payload) :
    extractContactBits p =
      { name := firstAnswerName (p.form_response.answers.getD []) <|>
          truthyOpt (jsObjGet (p.form_response.hidden.getD []) "name"),
        email := firstAnswerEmail (p.form_response.answers.getD []) <|>
          truthyOpt (jsObjGet (p.form_response.hidden.getD []) "email"),
        phone := firstAnswerPhone (p.form_response.answers.getD []) <|>
          truthyOpt (jsObjGet (p.form_response.hidden.getD []) "phone") } := by
  unfold extractContactBits
  dsimp only
  rw [contactFold]
  have hn0 : otruthy none = false := rfl
  simp only [hn0, Bool.false_eq_true, if_false, Option.orElse_none]
  rw [fallbackStep _ _ (firstAnswerEmail_truthy _),
      fallbackStep _ _ (firstAnswerPhone_truthy _),
      fallbackStep _ _ (firstAnswerName_truthy _)]

/-- `Map.set` then lookup: the set key reads the new value, any other key is unchanged. -/
theorem jsMapGet_set {α β : Type} [DecidableEq α] (m : List (α × β)) (k : α) (v : β) (q : α) :
    jsMapGet (jsMapSet m k v) q = if q = k then some v else jsMapGet m q := by
  induction m with
  | nil =>
    by_cases h : q = k
    · subst h
      simp [jsMapSet, jsMapGet, List.find?]
    · have h2 : ¬ k = q := fun hh => h hh.symm
      simp [jsMapSet, jsMapGet, List.find?, h, h2]
  | cons kv m ih =>
    by_cases hk : kv.1 = k
    · by_cases h : q = k
      · subst h
        simp [jsMapSet, jsMapGet, List.find?_cons, hk]
      · have h2 : ¬ k = q := fun hh => h hh.symm
        have h3 : ¬ kv.1 = q := by
          rw [hk]
          exact h2
        simp [jsMapSet, jsMapGet, List.find?_cons, hk, h, h2, h3]
    · simp only [jsMapSet, if_neg hk]
      by_cases h2 : kv.1 = q
      · have hqk : ¬ q = k := fun hh => hk (h2.trans hh)
        simp [jsMapGet, List.find?_cons, h2, hqk]
      · simpa [jsMapGet, List.find?_cons, h2] using ih

/-- Every binding after a `Map.set` is the new pair or an original one. -/
theorem mem_jsMapSet {α β : Type} [DecidableEq α] (m : List (α × β)) (k : α) (v : β)
    (kv : α × β) (h : kv ∈ jsMapSet m k v) : kv = (k, v) ∨ kv ∈ m := by
  induction m with
  | nil =>
    simp [jsMapSet] at h
    exact Or.inl h
  | cons hd m ih =>
    by_cases hk : hd.1 = k
    · simp [jsMapSet, hk] at h
      rcases h with h | h
      · exact Or.inl h
      · exact Or.inr (List.mem_cons_of_mem _ h)
    · simp [jsMapSet, hk] at h
      rcases h with h | h
      · exact Or.inr (by simp [h])
      · rcases ih h with h2 | h2
        · exact Or.inl h2
        · exact Or.inr (List.mem_cons_of_mem _ h2)

/-- A key present after a `Map.set` was present before or is the set key. -/
theorem keys_jsMapSet_mem {α β : Type} [DecidableEq α] (m : List (α × β)) (k : α) (v : β)
    (x : α) (h : x ∈ (jsMapSet m k v).map Prod.fst) : x ∈ m.map Prod.fst ∨ x = k := by
  simp only [List.mem_map] at h
  obtain ⟨kv, hkv, rfl⟩ := h
  rcases mem_jsMapSet m k v kv hkv with h | h
  · subst h
    exact Or.inr rfl
  · exact Or.inl (List.mem_map_of_mem _ h)

/-- `Map.set` preserves distinctness of keys. -/
theorem nodup_keys_jsMapSet {α β : Type} [DecidableEq α] (m : List (α × β)) (k : α) (v : β)
    (h : (m.map Prod.fst).Nodup) : ((jsMapSet m k v).map Prod.fst).Nodup := by
  induction m with
  | nil => simp [jsMapSet]
  | cons hd m ih =>
    by_cases hk : hd.1 = k
    · simp only [jsMapSet, if_pos hk, List.map_cons]
      simp only [List.map_cons] at h
      rw [← hk]
      exact h
    · simp only [jsMapSet, if_neg hk, List.map_cons, List.nodup_cons] at h ⊢
      refine ⟨?_, ih h.2⟩
      intro hmem
      rcases keys_jsMapSet_mem m k v hd.1 hmem with h2 | h2
      · exact h.1 h2
      · exact hk h2

/-- The assignment a single `put` contributes to field id `k`: present only when the put targets `k` and is not skipped. -/
def effectOn (k : Nat) (pa : PutArgs) : Option LeadCustomFieldValue :=
  if pa.fieldId = k ∧ putSkipped pa = false then some (renderPut pa) else none

/-- The assignment the last effective put targeting `k` leaves behind — the "last write wins" value of the override chain. -/
def lastEffect (k : Nat) (l : List PutArgs) : Option LeadCustomFieldValue :=
  l.foldl (fun acc pa => (effectOn k pa) <|> acc) none

/-- Folding the override chain from an accumulator prefers the later writes. -/
theorem lastEffect_from (k : Nat) (l : List PutArgs) (acc : Option LeadCustomFieldValue) :
    l.foldl (fun acc pa => (effectOn k pa) <|> acc) acc = (lastEffect k l <|> acc) := by
  induction l generalizing acc with
  | nil => simp [lastEffect]
  | cons pa l ih =>
    simp only [lastEffect, List.foldl_cons]
    rw [ih, ih ((effectOn k pa) <|> none)]
    cases lastEffect k l <;> cases effectOn k pa <;> simp

/-- One `put` followed by a lookup: the put effect, else the previous binding. -/
theorem applyPut_get (m : List (Nat × LeadCustomFieldValue)) (pa : PutArgs) (k : Nat) :
    jsMapGet (applyPut m pa) k = ((effectOn k pa) <|> jsMapGet m k) := by
  unfold applyPut effectOn
  by_cases hs : putSkipped pa = true
  · simp [hs]
  · have hs2 : putSkipped pa = false := by simpa using hs
    rw [if_neg (by simp [hs2])]
    rw [jsMapGet_set]
    by_cases hf : pa.fieldId = k
    · rw [if_pos hf.symm, if_pos ⟨hf, hs2⟩]
      simp
    · have hk2 : ¬ k = pa.fieldId := fun hh => hf hh.symm
      rw [if_neg hk2, if_neg (by simp [hf])]
      simp

/-- Lookup after a sequence of puts: the last effective put targeting the key, else the initial binding. -/
theorem foldl_applyPut_get (l : List PutArgs) (m : List (Nat × LeadCustomFieldValue)) (k : Nat) :
    jsMapGet (l.foldl applyPut m) k = (lastEffect k l <|> jsMapGet m k) := by
  induction l generalizing m with
  | nil => simp [lastEffect]
  | cons pa l ih =>
    have hle : lastEffect k (pa :: l) = (lastEffect k l <|> ((effectOn k pa) <|> none)) := by
      unfold lastEffect
      rw [List.foldl_cons]
      exact lastEffect_from k l _
    rw [List.foldl_cons, ih, applyPut_get, hle]
    cases lastEffect k l <;> cases effectOn k pa <;> cases jsMapGet m k <;> simp

/-- Any property holding for the initial bindings and for every non-skipped rendered put holds for all bindings after the fold. -/
theorem foldl_applyPut_mem (R : Nat × LeadCustomFieldValue → Prop) (l : List PutArgs)
    (m : List (Nat × LeadCustomFieldValue))
    (hm : ∀ kv ∈ m, R kv)
    (hl : ∀ pa ∈ l, putSkipped pa = false → R (pa.fieldId, renderPut pa)) :
    ∀ kv ∈ l.foldl applyPut m, R kv := by
  induction l generalizing m with
  | nil => exact hm
  | cons pa l ih =>
    simp only [List.foldl_cons]
    refine ih (applyPut m pa) ?_ (fun q hq hqs => hl q (List.mem_cons_of_mem _ hq) hqs)
    intro kv hkv
    unfold applyPut at hkv
    by_cases hs : putSkipped pa = true
    · rw [if_pos hs] at hkv
      exact hm kv hkv
    · rw [if_neg hs] at hkv
      rcases mem_jsMapSet _ _ _ _ hkv with h | h
      · subst h
        exact hl pa (List.mem_cons_self _ _) (by simpa using hs)
      · exact hm kv h

/-- The put fold keeps map keys distinct. -/
theorem foldl_applyPut_nodup (l : List PutArgs) (m : List (Nat × LeadCustomFieldValue))
    (hm : (m.map Prod.fst).Nodup) : ((l.foldl applyPut m).map Prod.fst).Nodup := by
  induction l generalizing m with
  | nil => exact hm
  | cons pa l ih =>
    simp only [List.foldl_cons]
    refine ih (applyPut m pa) ?_
    unfold applyPut
    by_cases hs : putSkipped pa = true
    · simp [hs, hm]
    · rw [if_neg hs]
      exact nodup_keys_jsMapSet m _ _ hm

/-- Under the key/field-id invariant, searching the values list by field id is the map lookup. -/
theorem values_find (m : List (Nat × LeadCustomFieldValue)) (k : Nat)
    (hinv : ∀ kv ∈ m, kv.2.field_id = kv.1) :
    (m.map (·.2)).find? (fun cf => decide (cf.field_id = k)) = jsMapGet m k := by
  induction m with
  | nil => simp [jsMapGet]
  | cons kv m ih =>
    have hk := hinv kv (List.mem_cons_self _ _)
    have ih2 := ih (fun q hq => hinv q (List.mem_cons_of_mem _ hq))
    by_cases h : kv.1 = k
    · have h2 : kv.2.field_id = k := by rw [hk]; exact h
      simp [jsMapGet, List.find?_cons, h, h2]
    · have h2 : ¬ kv.2.field_id = k := by rw [hk]; exact h
      simpa [jsMapGet, List.find?_cons, h, h2] using ih2

/-- Hidden-parameter puts never carry an enum id. -/
theorem hiddenPutArgs_wf (hidden : List (String × String)) :
    ∀ pa ∈ hiddenPutArgs hidden, pa.value = none ∨ pa.enumId = none := by
  intro pa hpa
  simp only [hiddenPutArgs, List.mem_filterMap] at hpa
  obtain ⟨kv, _, hkv⟩ := hpa
  repeat' split at hkv
  all_goals try (injection hkv with hkv2; rw [← hkv2])
  all_goals simp_all

/-- Static-ref puts carry a value or an enum id, never both. -/
theorem staticPutArgs_wf (a : Answer) :
    ∀ pa ∈ staticPutArgs a, pa.value = none ∨ pa.enumId = none := by
  intro pa hpa
  unfold staticPutArgs at hpa
  simp at hpa
  rcases hpa with ⟨_, rfl⟩ | ⟨_, rfl⟩ | ⟨_, rfl⟩ | ⟨_, rfl⟩ | ⟨_, rfl⟩ <;> simp

/-- Dynamic-map puts never carry an enum id. -/
theorem dynPutArgs_wf (fm : FieldMap) (a : Answer) (pa : PutArgs)
    (h : dynPutArgs fm a = some pa) : pa.value = none ∨ pa.enumId = none := by
  unfold dynPutArgs at h
  dsimp only at h
  cases hjm : jsMapGet fm (a.field.ref.getD a.field.id) with
  | none =>
    rw [hjm] at h
    simp at h
  | some mp =>
    rw [hjm] at h
    by_cases he : mp.entity = "lead"
    · simp [he] at h
      subst h
      simp
    · simp [he] at h

/-- No put of `buildLeadCustomFields` carries both a value and an enum id. -/
theorem putSequence_wf (fm : FieldMap) (p : Payload) :
    ∀ pa ∈ putSequence fm p, pa.value = none ∨ pa.enumId = none := by
  intro pa hpa
  simp only [putSequence, List.mem_append] at hpa
  rcases hpa with (h | h) | h
  · exact hiddenPutArgs_wf _ pa h
  · simp only [List.mem_flatMap] at h
    obtain ⟨a, _, ha⟩ := h
    exact staticPutArgs_wf a pa ha
  · simp only [List.mem_filterMap] at h
    obtain ⟨a, _, ha⟩ := h
    exact dynPutArgs_wf fm a pa ha

/-- A rendered non-skipped put stores only trimmed, non-empty value strings. -/
theorem render_value_ok (pa : PutArgs) (hpa : pa.value = none ∨ pa.enumId = none)
    (hns : putSkipped pa = false) :
    ∀ en ∈ (renderPut pa).values, ∀ s, en.value = some s →
      s ≠ "" ∧ ∃ raw : String, s = raw.trim := by
  intro en hen s hs
  rcases pa with ⟨f, v, eid⟩
  cases v with
  | none =>
    simp [renderPut, otruthy] at hen
    rw [hen] at hs
    simp at hs
  | some str =>
    rcases hpa with hv | heid
    · exact absurd hv (by simp)
    · have heid2 : eid = none := by simpa using heid
      subst heid2
      have htr : str.trim ≠ "" := by
        simp [putSkipped] at hns
        exact hns
      by_cases hso : otruthy (some str) = true
      · have hren : (renderPut ⟨f, some str, none⟩).values =
            [{ value := some str.trim, enum_id := none }] := by
          simp [renderPut, hso]
        rw [hren] at hen
        simp at hen
        subst hen
        simp at hs
        exact ⟨hs ▸ htr, str, hs.symm⟩
      · have hren : (renderPut ⟨f, some str, none⟩).values =
            [{ value := none, enum_id := none }] := by
          simp [renderPut, hso]
        rw [hren] at hen
        simp at hen
        subst hen
        simp at hs

/-- **C7.** `buildLeadCustomFields` produces at most one assignment per
target field id (the output field ids are distinct); the assignment for
each field id is the one left by the last effective put of the fixed
hidden-static-dynamic rule sequence (last write wins); and every stored
value string is non-empty and the trim of some source string. -/
theorem c7_field_mapper (fm : FieldMap) (p : Payload) :
    ((buildLeadCustomFields fm p).map (fun cf => cf.field_id)).Nodup ∧
    (∀ k, (buildLeadCustomFields fm p).find? (fun cf => decide (cf.field_id = k)) =
       lastEffect k (putSequence fm p)) ∧
    (∀ cf ∈ buildLeadCustomFields fm p, ∀ en ∈ cf.values, ∀ s, en.value = some s →
       s ≠ "" ∧ ∃ raw : String, s = raw.trim) := by
  have hinv : ∀ kv ∈ (putSequence fm p).foldl applyPut [], kv.2.field_id = kv.1 :=
    foldl_applyPut_mem (fun kv => kv.2.field_id = kv.1) _ [] (by simp) (fun pa _ _ => rfl)
  refine ⟨?_, ?_, ?_⟩
  · have hnd := foldl_applyPut_nodup (putSequence fm p) [] (by simp)
    unfold buildLeadCustomFields
    rw [List.map_map]
    have hmap : ((putSequence fm p).foldl applyPut []).map ((fun cf => cf.field_id) ∘ (·.2)) =
        ((putSequence fm p).foldl applyPut []).map Prod.fst :=
      List.map_congr_left (fun kv hkv => hinv kv hkv)
    rw [hmap]
    exact hnd
  · intro k
    unfold buildLeadCustomFields
    rw [values_find _ _ hinv, foldl_applyPut_get]
    simp [jsMapGet]
  · intro cf hcf en hen s hs
    unfold buildLeadCustomFields at hcf
    simp only [List.mem_map] at hcf
    obtain ⟨kv, hkv, rfl⟩ := hcf
    have hmem := foldl_applyPut_mem
      (fun kv => ∀ en ∈ kv.2.values, ∀ s, en.value = some s →
        s ≠ "" ∧ ∃ raw : String, s = raw.trim)
      (putSequence fm p) [] (by simp)
      (fun pa hpa hns => render_value_ok pa (putSequence_wf fm p pa hpa) hns)
    exact hmem kv hkv en hen s hs

/-- The dynamic field map of the spec example: answer ref `myref` feeds lead
field 214697 (`utm_source`). -/
def fmEx : FieldMap := [("myref", { entity := "lead", fieldId := 214697 })]

/-- A short-text answer with ref `myref`. -/
def ansDyn : Answer :=
  { type := "short_text", field := { id := "q1", ref := some "myref" }, text := some "dynvalue",
    email := none, phone_number := none, boolean := none, number := none, date := none,
    choice := none, choices := none }

/-- The spec example payload: hidden `utm_source=ads` plus the `myref`
answer that the dynamic map sends to the same field id. -/
def pMapEx : Payload :=
  { event_id := some "e7", event_type := none
    form_response :=
      { form_id := some "f1", token := some "tok7", landing_id := none, submitted_at := none,
        hidden := some [("utm_source", "ads")], definition := none, answers := some [ansDyn] } }

/-- Witness for C7 at the spec's precedence example. -/
theorem c7_field_mapper_witness :
    (buildLeadCustomFields fmEx pMapEx).find? (fun cf => decide (cf.field_id = 214697)) =
      lastEffect 214697 (putSequence fmEx pMapEx) ∧
    ((buildLeadCustomFields fmEx pMapEx).map (fun cf => cf.field_id)).Nodup :=
  ⟨(c7_field_mapper fmEx pMapEx).2.1 214697, (c7_field_mapper fmEx pMapEx).1⟩

end OpenDoorBot
